import Mathlib

set_option maxRecDepth 8192

/-!
Verification of the pure-Python EAN-13 barcode decoder in
`src/services/code services/image_scanner.py` (class `ImageBarcodeScanner`).

The pure fallback pipeline consists of:
* `_otsu_threshold`  : Otsu threshold over a list of pixel intensities,
* `_find_ean13`      : scan a binary line for an EAN-13 symbol,
* `_try_decode`      : attempt a decode at one candidate start offset,
* `_try_pure_python` : the orchestrator that samples lines, tallies votes
                       and returns the most-voted barcode.

Binary lines are modelled as `List Nat` (entries 0/1), decoded barcodes as
`List Nat` (13 digits, the string join in the source being a bijective
rendering of the digit list), and Python float arithmetic inside the Otsu
loop is modelled exactly over `ℚ`.  Fallible indexing in `_try_decode`
(guarded in the source by `try/except`) is modelled by an `Except Unit`
variant in which an out-of-bounds read is an `error`.
-/

namespace ImageScanner

/-- The `L` digit-pattern table of `_find_ean13` (source lines 319-320). -/
def Ltable : List (List Nat) :=
  [[0,0,0,1,1,0,1], [0,0,1,1,0,0,1], [0,0,1,0,0,1,1], [0,1,1,1,1,0,1], [0,1,0,0,0,1,1],
   [0,1,1,0,0,0,1], [0,1,0,1,1,1,1], [0,1,1,1,0,1,1], [0,1,1,0,1,1,1], [0,0,0,1,0,1,1]]

/-- The `G` digit-pattern table of `_find_ean13` (source lines 321-322). -/
def Gtable : List (List Nat) :=
  [[0,1,0,0,1,1,1], [0,1,1,0,0,1,1], [0,0,1,1,0,1,1], [0,1,0,0,0,0,1], [0,0,1,1,1,0,1],
   [0,1,1,1,0,0,1], [0,0,0,0,1,0,1], [0,0,1,0,0,0,1], [0,0,0,1,0,0,1], [0,0,1,0,1,1,1]]

/-- The `R` digit-pattern table of `_find_ean13` (source lines 323-324). -/
def Rtable : List (List Nat) :=
  [[1,1,1,0,0,1,0], [1,1,0,0,1,1,0], [1,1,0,1,1,0,0], [1,0,0,0,0,1,0], [1,0,1,1,1,0,0],
   [1,0,0,1,1,1,0], [1,0,1,0,0,0,0], [1,0,0,0,1,0,0], [1,0,0,1,0,0,0], [1,1,1,0,1,0,0]]

/-- The `FIRST` parity table of `_find_ean13` (source lines 325-326):
entry `d` is the L/G provenance pattern of the six left groups that encodes
first digit `d`. -/
def FIRST : List (List Char) :=
  [['L','L','L','L','L','L'], ['L','L','G','L','G','G'], ['L','L','G','G','L','G'],
   ['L','L','G','G','G','L'], ['L','G','L','L','G','G'], ['L','G','G','L','L','G'],
   ['L','G','G','G','L','L'], ['L','G','L','G','L','G'], ['L','G','L','G','G','L'],
   ['L','G','G','L','G','L']]

/-- One 7-bit group read `binary[pos+j] for j in range(7)` (source lines 349
and 370); reading past the end of the line raises, modelled as `error`. -/
def readGroup (binary : List Nat) (pos : Nat) : Except Unit (List Nat) :=
  if pos + 7 ≤ binary.length then .ok ((binary.drop pos).take 7) else .error ()

/-- The inner loop of the left-group decode (source lines 351-361): for each
digit `0..9`, compare the pattern against `L[digit]` and then `G[digit]`,
recording the digit and the matching table. -/
def matchLG (pattern : List Nat) : Option (Nat × Char) :=
  (List.range 10).findSome? (fun digit =>
    if Ltable.getD digit [] = pattern then some (digit, 'L')
    else if Gtable.getD digit [] = pattern then some (digit, 'G')
    else none)

/-- The inner loop of the right-group decode (source lines 372-376): match
against `R[digit]` only. -/
def matchR (pattern : List Nat) : Option Nat :=
  (List.range 10).findSome? (fun digit =>
    if Rtable.getD digit [] = pattern then some digit else none)

/-- The left-group loop of `_try_decode` (source lines 346-364): read `count`
consecutive 7-bit groups from `pos`, matching each against `L`/`G`.  Returns
`ok none` when a group matches neither table (candidate disqualified) and
`error` when a read goes out of bounds. -/
def decodeLeft (binary : List Nat) (pos : Nat) : Nat → Except Unit (Option (List Nat × List Char))
  | 0 => .ok (some ([], []))
  | n + 1 =>
    match readGroup binary pos with
    | .error e => .error e
    | .ok pattern =>
      match matchLG pattern with
      | none => .ok none
      | some (digit, ty) =>
        match decodeLeft binary (pos + 7) n with
        | .error e => .error e
        | .ok none => .ok none
        | .ok (some (ds, ts)) => .ok (some (digit :: ds, ty :: ts))

/-- The right-group loop of `_try_decode` (source lines 368-379). -/
def decodeRight (binary : List Nat) (pos : Nat) : Nat → Except Unit (Option (List Nat))
  | 0 => .ok (some [])
  | n + 1 =>
    match readGroup binary pos with
    | .error e => .error e
    | .ok pattern =>
      match matchR pattern with
      | none => .ok none
      | some digit =>
        match decodeRight binary (pos + 7) n with
        | .error e => .error e
        | .ok none => .ok none
        | .ok (some ds) => .ok (some (digit :: ds))

/-- First-digit lookup from the parity pattern (source lines 381-386). -/
def firstDigitOf (types : List Char) : Option Nat :=
  (List.range 10).findSome? (fun fd =>
    if FIRST.getD fd [] = types then some fd else none)

/-- The checksum total of `_try_decode` (source line 396):
`sum(digits[i] * (1 if i % 2 == 0 else 3) for i in range(12))`. -/
def checksumTotal (digits : List Nat) : Nat :=
  ((List.range 12).map (fun i => digits.getD i 0 * (if i % 2 = 0 then 1 else 3))).sum

/-- The check digit of `_try_decode` (source line 397):
`(10 - (total % 10)) % 10`. -/
def checkDigit (digits : List Nat) : Nat :=
  (10 - checksumTotal digits % 10) % 10

/-- `_try_decode` (source lines 338-403) with exceptions made explicit:
`error` is an uncaught out-of-bounds read, `ok none` a disqualified
candidate start, `ok (some ds)` a checksum-valid decode. -/
def tryDecodeE (binary : List Nat) (start : Nat) : Except Unit (Option (List Nat)) :=
  if start + 3 + 42 + 5 + 42 + 3 > binary.length then .ok none
  else
    match decodeLeft binary (start + 3) 6 with
    | .error e => .error e
    | .ok none => .ok none
    | .ok (some (leftDigits, leftTypes)) =>
      match decodeRight binary (start + 3 + 42 + 5) 6 with
      | .error e => .error e
      | .ok none => .ok none
      | .ok (some rightDigits) =>
        match firstDigitOf leftTypes with
        | none => .ok none
        | some firstDigit =>
          if (firstDigit :: (leftDigits ++ rightDigits)).length = 13 then
            if checkDigit (firstDigit :: (leftDigits ++ rightDigits)) =
                (firstDigit :: (leftDigits ++ rightDigits)).getD 12 0 then
              .ok (some (firstDigit :: (leftDigits ++ rightDigits)))
            else .ok none
          else .ok none

/-- `_try_decode` as called by `_find_ean13`: the surrounding
`try/except Exception: return None` (source lines 340, 402-403) collapses an
exception to `None`. -/
def tryDecode (binary : List Nat) (start : Nat) : Option (List Nat) :=
  match tryDecodeE binary start with
  | .error _ => none
  | .ok r => r

/-- Candidate-start test of `_find_ean13` (source line 332):
`binary[i] == 1 and binary[i+1] == 0 and binary[i+2] == 1`. -/
def isCandidate (binary : List Nat) (i : Nat) : Bool :=
  binary.getD i 0 == 1 && binary.getD (i + 1) 0 == 0 && binary.getD (i + 2) 0 == 1

/-- The scan loop of `_find_ean13` (source lines 331-336) over a list of
candidate offsets: return the first successful decode. -/
def scanStarts (binary : List Nat) : List Nat → Option (List Nat)
  | [] => none
  | i :: rest =>
    if isCandidate binary i then
      match tryDecode binary i with
      | some r => some r
      | none => scanStarts binary rest
    else scanStarts binary rest

/-- `_find_ean13` (source lines 317-336): guard `len(binary) < 95`, then scan
offsets `range(len(binary) - 95)`. -/
def findEan13 (binary : List Nat) : Option (List Nat) :=
  if binary.length < 95 then none
  else scanStarts binary (List.range (binary.length - 95))

/-- The scan loop with the exception of `_try_decode` propagated instead of
caught, to show it never fires. -/
def scanStartsE (binary : List Nat) : List Nat → Except Unit (Option (List Nat))
  | [] => .ok none
  | i :: rest =>
    if isCandidate binary i then
      match tryDecodeE binary i with
      | .error e => .error e
      | .ok (some r) => .ok (some r)
      | .ok none => scanStartsE binary rest
    else scanStartsE binary rest

/-- `_find_ean13` with the exception of `_try_decode` propagated instead of
caught. -/
def findEan13E (binary : List Nat) : Except Unit (Option (List Nat)) :=
  if binary.length < 95 then .ok none
  else scanStartsE binary (List.range (binary.length - 95))

/-- The running state of the `_otsu_threshold` loop (source lines 295-298):
`weight_bg`, `sum_bg`, `max_variance`, `threshold`, plus a flag recording
that the `break` at `weight_fg == 0` has fired. -/
structure OtsuState where
  weightBg : Nat
  sumBg : Nat
  maxVariance : ℚ
  threshold : Nat
  stopped : Bool

/-- The histogram of `_otsu_threshold` (source lines 289-291):
`histogram[min(255, max(0, int(p)))] += 1` over a 256-bin zero array
(`max 0` is the identity on `Nat`). -/
def buildHist (pixels : List Nat) : List Nat :=
  pixels.foldl (fun h p => h.set (min 255 p) (h.getD (min 255 p) 0 + 1))
    (List.replicate 256 0)

/-- Partial histogram weight `sum(hist[j] for j in range(n))`. -/
def Wsum (hist : List Nat) (n : Nat) : Nat :=
  ((List.range n).map (fun j => hist.getD j 0)).sum

/-- Partial weighted sum `sum(j * hist[j] for j in range(n))`; `Ssum hist 256`
is the `sum_total` of source line 294. -/
def Ssum (hist : List Nat) (n : Nat) : Nat :=
  ((List.range n).map (fun j => j * hist.getD j 0)).sum

/-- One iteration of the `_otsu_threshold` loop (source lines 300-313), with
Python float arithmetic modelled exactly over `ℚ`.  `continue` and `break`
are the first two branches; once stopped the state is frozen. -/
def otsuStep (total sumTotal : Nat) (hist : List Nat) (s : OtsuState) (i : Nat) : OtsuState :=
  if s.stopped then s
  else
    if s.weightBg + hist.getD i 0 = 0 then { s with weightBg := s.weightBg + hist.getD i 0 }
    else
      if total - (s.weightBg + hist.getD i 0) = 0 then
        { s with weightBg := s.weightBg + hist.getD i 0, stopped := true }
      else
        if ((s.weightBg + hist.getD i 0 : Nat) : ℚ) *
              ((total - (s.weightBg + hist.getD i 0) : Nat) : ℚ) *
              (((s.sumBg + i * hist.getD i 0 : Nat) : ℚ) /
                  ((s.weightBg + hist.getD i 0 : Nat) : ℚ) -
                ((sumTotal : ℚ) - ((s.sumBg + i * hist.getD i 0 : Nat) : ℚ)) /
                  ((total - (s.weightBg + hist.getD i 0) : Nat) : ℚ)) ^ 2 >
            s.maxVariance then
          { weightBg := s.weightBg + hist.getD i 0,
            sumBg := s.sumBg + i * hist.getD i 0,
            maxVariance :=
              ((s.weightBg + hist.getD i 0 : Nat) : ℚ) *
                ((total - (s.weightBg + hist.getD i 0) : Nat) : ℚ) *
                (((s.sumBg + i * hist.getD i 0 : Nat) : ℚ) /
                    ((s.weightBg + hist.getD i 0 : Nat) : ℚ) -
                  ((sumTotal : ℚ) - ((s.sumBg + i * hist.getD i 0 : Nat) : ℚ)) /
                    ((total - (s.weightBg + hist.getD i 0) : Nat) : ℚ)) ^ 2,
            threshold := i, stopped := false }
        else
          { s with weightBg := s.weightBg + hist.getD i 0,
                   sumBg := s.sumBg + i * hist.getD i 0 }

/-- `_otsu_threshold` (source lines 284-315): `total = len(pixels)`,
`sum_total = sum(i * histogram[i] for i in range(256))`, then the loop over
`range(256)` starting from `threshold = 128`. -/
def otsuThreshold (pixels : List Nat) : Nat :=
  if pixels = [] then 128
  else
    ((List.range 256).foldl
      (otsuStep pixels.length (Ssum (buildHist pixels) 256) (buildHist pixels))
      ⟨0, 0, 0, 128, false⟩).threshold

/-- Division that raises on a zero denominator, as Python float division
does. -/
def divE (a b : ℚ) : Except Unit ℚ :=
  if b = 0 then .error () else .ok (a / b)

/-- One iteration of the `_otsu_threshold` loop with the two divisions
checked: an `error` is a `ZeroDivisionError`. -/
def otsuStepE (total sumTotal : Nat) (hist : List Nat) (s : OtsuState) (i : Nat) :
    Except Unit OtsuState :=
  if s.stopped then .ok s
  else
    if s.weightBg + hist.getD i 0 = 0 then
      .ok { s with weightBg := s.weightBg + hist.getD i 0 }
    else
      if total - (s.weightBg + hist.getD i 0) = 0 then
        .ok { s with weightBg := s.weightBg + hist.getD i 0, stopped := true }
      else
        match divE ((s.sumBg + i * hist.getD i 0 : Nat) : ℚ)
            ((s.weightBg + hist.getD i 0 : Nat) : ℚ) with
        | .error e => .error e
        | .ok meanBg =>
          match divE ((sumTotal : ℚ) - ((s.sumBg + i * hist.getD i 0 : Nat) : ℚ))
              ((total - (s.weightBg + hist.getD i 0) : Nat) : ℚ) with
          | .error e => .error e
          | .ok meanFg =>
            if ((s.weightBg + hist.getD i 0 : Nat) : ℚ) *
                  ((total - (s.weightBg + hist.getD i 0) : Nat) : ℚ) *
                  (meanBg - meanFg) ^ 2 >
                s.maxVariance then
              .ok { weightBg := s.weightBg + hist.getD i 0,
                    sumBg := s.sumBg + i * hist.getD i 0,
                    maxVariance :=
                      ((s.weightBg + hist.getD i 0 : Nat) : ℚ) *
                        ((total - (s.weightBg + hist.getD i 0) : Nat) : ℚ) *
                        (meanBg - meanFg) ^ 2,
                    threshold := i, stopped := false }
            else
              .ok { s with weightBg := s.weightBg + hist.getD i 0,
                           sumBg := s.sumBg + i * hist.getD i 0 }

/-- `_otsu_threshold` with divisions checked; an `error` is an uncaught
`ZeroDivisionError`. -/
def otsuThresholdE (pixels : List Nat) : Except Unit Nat :=
  if pixels = [] then .ok 128
  else
    match (List.range 256).foldlM
        (otsuStepE pixels.length (Ssum (buildHist pixels) 256) (buildHist pixels))
        ⟨0, 0, 0, 128, false⟩ with
    | .error e => .error e
    | .ok s => .ok s.threshold

/-- The between-class variance of the partitions `(≤ i)` / `(> i)` of the
histogram of `pixels` (the quantity the loop of `_otsu_threshold` computes at
iteration `i`), with the degenerate one-sided cases taken as `0`. -/
def varAt (pixels : List Nat) (i : Nat) : ℚ :=
  if Wsum (buildHist pixels) (i + 1) = 0 then 0
  else if pixels.length - Wsum (buildHist pixels) (i + 1) = 0 then 0
  else
    (Wsum (buildHist pixels) (i + 1) : ℚ) *
      ((pixels.length - Wsum (buildHist pixels) (i + 1) : Nat) : ℚ) *
      ((Ssum (buildHist pixels) (i + 1) : ℚ) / (Wsum (buildHist pixels) (i + 1) : ℚ) -
        ((Ssum (buildHist pixels) 256 : ℚ) - (Ssum (buildHist pixels) (i + 1) : ℚ)) /
          ((pixels.length - Wsum (buildHist pixels) (i + 1) : Nat) : ℚ)) ^ 2

/-- Modelled from the spec: the between-class variance of the partitions
`(< t)` / `(≥ t)` of the histogram of `pixels` — the quantity the spec says
the returned threshold maximizes — with degenerate one-sided cases taken
as `0`. -/
def varStrictAt (pixels : List Nat) (t : Nat) : ℚ :=
  if Wsum (buildHist pixels) t = 0 then 0
  else if pixels.length - Wsum (buildHist pixels) t = 0 then 0
  else
    (Wsum (buildHist pixels) t : ℚ) *
      ((pixels.length - Wsum (buildHist pixels) t : Nat) : ℚ) *
      ((Ssum (buildHist pixels) t : ℚ) / (Wsum (buildHist pixels) t : ℚ) -
        ((Ssum (buildHist pixels) 256 : ℚ) - (Ssum (buildHist pixels) t : ℚ)) /
          ((pixels.length - Wsum (buildHist pixels) t : Nat) : ℚ)) ^ 2

/-- The vote-map update `barcodes_found[barcode] = barcodes_found.get(barcode, 0) + 1`
(source line 275) on an insertion-ordered association list, Python dicts
being insertion-ordered: an existing key keeps its position, a new key is
appended. -/
def bump : List (List Nat × Nat) → List Nat → List (List Nat × Nat)
  | [], k => [(k, 1)]
  | p :: rest, k => if p.1 = k then (p.1, p.2 + 1) :: rest else p :: bump rest k

/-- The scan of `max(barcodes_found, key=barcodes_found.get)` after its first
entry: Python `max` keeps the current best unless a strictly greater value
appears, so the first key attaining the maximum wins. -/
def maxVoteAux (bk : List Nat) (bv : Nat) : List (List Nat × Nat) → List Nat
  | [] => bk
  | (k, v) :: rest => if v > bv then maxVoteAux k v rest else maxVoteAux bk bv rest

/-- `max(barcodes_found, key=barcodes_found.get)` on a non-empty vote map,
`none` on an empty one (source lines 277-280). -/
def maxVote : List (List Nat × Nat) → Option (List Nat)
  | [] => none
  | (k, v) :: rest => some (maxVoteAux k v rest)

/-- A grayscale grid as consumed by `_try_pure_python` after
`img.convert('L')`: row-major pixel list of `width * height` intensities. -/
structure Grid where
  width : Nat
  height : Nat
  pixels : List Nat

/-- The line schedule `range(15, 85, 2)` of `_try_pure_python`
(source line 263). -/
def linePcts : List Nat :=
  (List.range 35).map (fun k => 15 + 2 * k)

/-- Row extraction of `_try_pure_python` (source lines 264-265):
`y = int(height * line_pct / 100); row = pixels[y * width:(y + 1) * width]`
(a Python slice clamps at the end of the list). -/
def rowAt (g : Grid) (pct : Nat) : List Nat :=
  let y := g.height * pct / 100
  (g.pixels.drop (y * g.width)).take g.width

/-- Binarization of one row (source lines 270-271):
`binary = [0 if p < threshold else 1 for p in row]` with
`threshold = _otsu_threshold(row)`. -/
def binarize (row : List Nat) : List Nat :=
  row.map (fun p => if p < otsuThreshold row then 0 else 1)

/-- One iteration of the line loop of `_try_pure_python` (source lines
264-273): skip short rows, else threshold, binarize and scan. -/
def lineResult (g : Grid) (pct : Nat) : Option (List Nat) :=
  if (rowAt g pct).length < 100 then none
  else findEan13 (binarize (rowAt g pct))

/-- The vote tally of one line (source lines 274-275). -/
def lineStep (g : Grid) (m : List (List Nat × Nat)) (pct : Nat) :
    List (List Nat × Nat) :=
  match lineResult g pct with
  | some b => bump m b
  | none => m

/-- The vote map built by the line loop of `_try_pure_python`
(source lines 261-275). -/
def scanVotes (g : Grid) : List (List Nat × Nat) :=
  linePcts.foldl (lineStep g) []

/-- `_try_pure_python` (source lines 254-282) on the grayscale grid: the
most-voted barcode, or `none` when the vote map is empty. -/
def tryPurePython (g : Grid) : Option (List Nat) :=
  maxVote (scanVotes g)

/-- Modelled from the spec (§4.2 step 2 and §8): the left-half 7-bit pattern
of digit `d` under parity letter `c` (`L` table for `L`, `G` table
otherwise). -/
def leftPattern (c : Char) (d : Nat) : List Nat :=
  if c = 'L' then Ltable.getD d [] else Gtable.getD d []

/-- Modelled from the spec (§4.2 and §8): the first 92 modules of the
standard EAN-13 bit layout of 13 digits — start guard `101`, six left digits
in the `L`/`G` tables selected by the parity pattern of the first digit,
middle guard `01010`, six right digits in the `R` table. -/
def encodeCore (d0 d1 d2 d3 d4 d5 d6 d7 d8 d9 d10 d11 d12 : Nat) : List Nat :=
  [1,0,1] ++ leftPattern ((FIRST.getD d0 []).getD 0 'L') d1
  ++ leftPattern ((FIRST.getD d0 []).getD 1 'L') d2
  ++ leftPattern ((FIRST.getD d0 []).getD 2 'L') d3
  ++ leftPattern ((FIRST.getD d0 []).getD 3 'L') d4
  ++ leftPattern ((FIRST.getD d0 []).getD 4 'L') d5
  ++ leftPattern ((FIRST.getD d0 []).getD 5 'L') d6
  ++ [0,1,0,1,0]
  ++ Rtable.getD d7 [] ++ Rtable.getD d8 [] ++ Rtable.getD d9 []
  ++ Rtable.getD d10 [] ++ Rtable.getD d11 [] ++ Rtable.getD d12 []

/-- Modelled from the spec (§4.2): the full 95-module EAN-13 bit layout,
`encodeCore` followed by the end guard `101`. -/
def encodeEan13 (d0 d1 d2 d3 d4 d5 d6 d7 d8 d9 d10 d11 d12 : Nat) : List Nat :=
  encodeCore d0 d1 d2 d3 d4 d5 d6 d7 d8 d9 d10 d11 d12 ++ [1,0,1]

/-- Modelled from the spec (§4.2 steps 1 and 8): the scan of `_find_ean13`
restated declaratively — the first successful decode among the candidate
start offsets (those in `[0, len - 95)` carrying the `1,0,1` start guard),
taken in increasing order. -/
def findEan13Spec (binary : List Nat) : Option (List Nat) :=
  ((List.range (binary.length - 95)).filter (isCandidate binary)).findSome?
    (tryDecode binary)

/-! ### Table facts, established by evaluation -/

lemma matchLG_Ltable : ∀ d, d < 10 → matchLG (Ltable.getD d []) = some (d, 'L') := by decide

lemma matchLG_Gtable : ∀ d, d < 10 → matchLG (Gtable.getD d []) = some (d, 'G') := by decide

lemma matchR_Rtable : ∀ d, d < 10 → matchR (Rtable.getD d []) = some d := by decide

lemma firstDigitOf_FIRST : ∀ d, d < 10 → firstDigitOf (FIRST.getD d []) = some d := by decide

lemma length_Ltable : ∀ d, d < 10 → (Ltable.getD d []).length = 7 := by decide

lemma length_Gtable : ∀ d, d < 10 → (Gtable.getD d []).length = 7 := by decide

lemma length_Rtable : ∀ d, d < 10 → (Rtable.getD d []).length = 7 := by decide

lemma parity_entry : ∀ d, d < 10 → ∀ k, k < 6 →
    ((FIRST.getD d []).getD k 'L' = 'L' ∨ (FIRST.getD d []).getD k 'L' = 'G') := by decide

lemma parity_list : ∀ d, d < 10 →
    [(FIRST.getD d []).getD 0 'L', (FIRST.getD d []).getD 1 'L',
     (FIRST.getD d []).getD 2 'L', (FIRST.getD d []).getD 3 'L',
     (FIRST.getD d []).getD 4 'L', (FIRST.getD d []).getD 5 'L'] = FIRST.getD d [] := by decide

lemma matchLG_leftPattern {c : Char} (hc : c = 'L' ∨ c = 'G') {d : Nat} (hd : d < 10) :
    matchLG (leftPattern c d) = some (d, c) := by
  rcases hc with rfl | rfl
  · rw [leftPattern, if_pos rfl]; exact matchLG_Ltable d hd
  · rw [leftPattern, if_neg (by decide)]; exact matchLG_Gtable d hd

lemma length_leftPattern {c : Char} (hc : c = 'L' ∨ c = 'G') {d : Nat} (hd : d < 10) :
    (leftPattern c d).length = 7 := by
  rcases hc with rfl | rfl
  · rw [leftPattern, if_pos rfl]; exact length_Ltable d hd
  · rw [leftPattern, if_neg (by decide)]; exact length_Gtable d hd

/-! ### Shift and prefix lemmas for the group reader -/

lemma readGroup_drop (l : List Nat) (pos : Nat) :
    readGroup l pos = readGroup (l.drop pos) 0 := by
  unfold readGroup
  rw [List.drop_zero, List.length_drop]
  by_cases h : pos + 7 ≤ l.length
  · rw [if_pos h, if_pos (by omega)]
  · rw [if_neg h, if_neg (by omega)]

lemma readGroup_first (pat rest : List Nat) (h : pat.length = 7) :
    readGroup (pat ++ rest) 0 = .ok pat := by
  unfold readGroup
  rw [List.drop_zero, if_pos (by simp [List.length_append]; omega)]
  rw [List.take_left' h]

lemma decodeLeft_drop : ∀ (n : Nat) (l : List Nat) (pos : Nat),
    decodeLeft l pos n = decodeLeft (l.drop pos) 0 n := by
  intro n
  induction n with
  | zero => intro l pos; rfl
  | succ n ih =>
    intro l pos
    simp only [decodeLeft]
    rw [readGroup_drop, ih l (pos + 7), ih (l.drop pos) 7, List.drop_drop]

lemma decodeRight_drop : ∀ (n : Nat) (l : List Nat) (pos : Nat),
    decodeRight l pos n = decodeRight (l.drop pos) 0 n := by
  intro n
  induction n with
  | zero => intro l pos; rfl
  | succ n ih =>
    intro l pos
    simp only [decodeRight]
    rw [readGroup_drop, ih l (pos + 7), ih (l.drop pos) 7, List.drop_drop]

lemma decodeLeft_cons (pat rest : List Nat) (d : Nat) (c : Char) (n : Nat)
    (hlen : pat.length = 7) (hm : matchLG pat = some (d, c)) :
    decodeLeft (pat ++ rest) 0 (n + 1) =
      match decodeLeft rest 0 n with
      | .error e => .error e
      | .ok none => .ok none
      | .ok (some (ds, ts)) => .ok (some (d :: ds, c :: ts)) := by
  simp only [decodeLeft]
  rw [readGroup_first pat rest hlen]
  simp only [hm]
  rw [decodeLeft_drop n (pat ++ rest) 7, List.drop_left' hlen]

lemma decodeRight_cons (pat rest : List Nat) (d : Nat) (n : Nat)
    (hlen : pat.length = 7) (hm : matchR pat = some d) :
    decodeRight (pat ++ rest) 0 (n + 1) =
      match decodeRight rest 0 n with
      | .error e => .error e
      | .ok none => .ok none
      | .ok (some ds) => .ok (some (d :: ds)) := by
  simp only [decodeRight]
  rw [readGroup_first pat rest hlen]
  simp only [hm]
  rw [decodeRight_drop n (pat ++ rest) 7, List.drop_left' hlen]

lemma tryDecode_eq (binary : List Nat) (start : Nat) :
    tryDecode binary start =
      match tryDecodeE binary start with
      | .error _ => none
      | .ok r => r := rfl

lemma scanStarts_cons (binary : List Nat) (i : Nat) (rest : List Nat) :
    scanStarts binary (i :: rest) =
      if isCandidate binary i then
        match tryDecode binary i with
        | some r => some r
        | none => scanStarts binary rest
      else scanStarts binary rest := rfl

lemma drop_chunk7 {B rest : List Nat} (pat : List Nat) {k : Nat} (hlen : pat.length = 7)
    (h : B.drop k = pat ++ rest) : B.drop (k + 7) = rest := by
  have h2 : (B.drop k).drop 7 = B.drop (k + 7) := List.drop_drop 7 k B
  rw [← h2, h, List.drop_left' hlen]

/-- Decoding a line laid out as start guard, six `L`/`G`-matchable left
groups, middle guard, six `R`-matchable right groups and at least three
further bits succeeds, provided the checksum of the assembled digits
validates. -/
lemma tryDecodeE_layout
    (B p1 p2 p3 p4 p5 p6 r1 r2 r3 r4 r5 r6 tail : List Nat)
    (d0 d1 d2 d3 d4 d5 d6 d7 d8 d9 d10 d11 d12 : Nat)
    (c1 c2 c3 c4 c5 c6 : Char)
    (hp1 : p1.length = 7) (hp2 : p2.length = 7) (hp3 : p3.length = 7)
    (hp4 : p4.length = 7) (hp5 : p5.length = 7) (hp6 : p6.length = 7)
    (hr1 : r1.length = 7) (hr2 : r2.length = 7) (hr3 : r3.length = 7)
    (hr4 : r4.length = 7) (hr5 : r5.length = 7) (hr6 : r6.length = 7)
    (hm1 : matchLG p1 = some (d1, c1)) (hm2 : matchLG p2 = some (d2, c2))
    (hm3 : matchLG p3 = some (d3, c3)) (hm4 : matchLG p4 = some (d4, c4))
    (hm5 : matchLG p5 = some (d5, c5)) (hm6 : matchLG p6 = some (d6, c6))
    (hn1 : matchR r1 = some d7) (hn2 : matchR r2 = some d8)
    (hn3 : matchR r3 = some d9) (hn4 : matchR r4 = some d10)
    (hn5 : matchR r5 = some d11) (hn6 : matchR r6 = some d12)
    (hf : firstDigitOf [c1, c2, c3, c4, c5, c6] = some d0)
    (htail : 3 ≤ tail.length)
    (hck : checkDigit [d0,d1,d2,d3,d4,d5,d6,d7,d8,d9,d10,d11,d12] = d12)
    (hB : B = [1,0,1] ++ (p1 ++ (p2 ++ (p3 ++ (p4 ++ (p5 ++ (p6 ++ ([0,1,0,1,0] ++
      (r1 ++ (r2 ++ (r3 ++ (r4 ++ (r5 ++ (r6 ++ tail)))))))))))))) :
    tryDecodeE B 0 = .ok (some [d0,d1,d2,d3,d4,d5,d6,d7,d8,d9,d10,d11,d12]) := by
  have hlen : B.length = 92 + tail.length := by
    rw [hB]
    simp only [List.length_append, List.length_cons, List.length_nil,
      hp1, hp2, hp3, hp4, hp5, hp6, hr1, hr2, hr3, hr4, hr5, hr6]
    omega
  have e3 : B.drop 3 = p1 ++ (p2 ++ (p3 ++ (p4 ++ (p5 ++ (p6 ++ ([0,1,0,1,0] ++
      (r1 ++ (r2 ++ (r3 ++ (r4 ++ (r5 ++ (r6 ++ tail)))))))))))) := by
    rw [hB]; exact rfl
  have e10 := drop_chunk7 p1 hp1 e3
  have e17 := drop_chunk7 p2 hp2 e10
  have e24 := drop_chunk7 p3 hp3 e17
  have e31 := drop_chunk7 p4 hp4 e24
  have e38 := drop_chunk7 p5 hp5 e31
  have e45 := drop_chunk7 p6 hp6 e38
  have e50 : B.drop 50 = r1 ++ (r2 ++ (r3 ++ (r4 ++ (r5 ++ (r6 ++ tail))))) := by
    have h2 : (B.drop 45).drop 5 = B.drop 50 := by
      have := List.drop_drop 5 45 B
      rw [this]
    rw [← h2, e45]; exact rfl
  have hleft : decodeLeft B (0 + 3) 6 =
      .ok (some ([d1,d2,d3,d4,d5,d6], [c1,c2,c3,c4,c5,c6])) := by
    rw [decodeLeft_drop 6 B (0 + 3)]
    show decodeLeft (B.drop 3) 0 6 = _
    rw [e3]
    rw [decodeLeft_cons p1 _ d1 c1 5 hp1 hm1]
    rw [decodeLeft_cons p2 _ d2 c2 4 hp2 hm2]
    rw [decodeLeft_cons p3 _ d3 c3 3 hp3 hm3]
    rw [decodeLeft_cons p4 _ d4 c4 2 hp4 hm4]
    rw [decodeLeft_cons p5 _ d5 c5 1 hp5 hm5]
    rw [decodeLeft_cons p6 _ d6 c6 0 hp6 hm6]
    rfl
  have hright : decodeRight B (0 + 3 + 42 + 5) 6 =
      .ok (some [d7,d8,d9,d10,d11,d12]) := by
    rw [decodeRight_drop 6 B (0 + 3 + 42 + 5)]
    show decodeRight (B.drop 50) 0 6 = _
    rw [e50]
    rw [decodeRight_cons r1 _ d7 5 hr1 hn1]
    rw [decodeRight_cons r2 _ d8 4 hr2 hn2]
    rw [decodeRight_cons r3 _ d9 3 hr3 hn3]
    rw [decodeRight_cons r4 _ d10 2 hr4 hn4]
    rw [decodeRight_cons r5 _ d11 1 hr5 hn5]
    rw [decodeRight_cons r6 _ d12 0 hr6 hn6]
    rfl
  simp only [tryDecodeE]
  rw [if_neg (by omega)]
  rw [hleft]
  simp only []
  rw [hright]
  simp only []
  rw [hf]
  simp only [List.cons_append, List.nil_append]
  rw [if_pos (by simp)]
  rw [if_pos]
  exact hck

lemma length_encodeCore (d0 d1 d2 d3 d4 d5 d6 d7 d8 d9 d10 d11 d12 : Nat)
    (h0 : d0 < 10) (h1 : d1 < 10) (h2 : d2 < 10) (h3 : d3 < 10) (h4 : d4 < 10)
    (h5 : d5 < 10) (h6 : d6 < 10) (h7 : d7 < 10) (h8 : d8 < 10) (h9 : d9 < 10)
    (h10 : d10 < 10) (h11 : d11 < 10) (h12 : d12 < 10) :
    (encodeCore d0 d1 d2 d3 d4 d5 d6 d7 d8 d9 d10 d11 d12).length = 92 := by
  simp only [encodeCore, List.length_append, List.length_cons, List.length_nil,
    length_leftPattern (parity_entry d0 h0 0 (by norm_num)) h1,
    length_leftPattern (parity_entry d0 h0 1 (by norm_num)) h2,
    length_leftPattern (parity_entry d0 h0 2 (by norm_num)) h3,
    length_leftPattern (parity_entry d0 h0 3 (by norm_num)) h4,
    length_leftPattern (parity_entry d0 h0 4 (by norm_num)) h5,
    length_leftPattern (parity_entry d0 h0 5 (by norm_num)) h6,
    length_Rtable d7 h7, length_Rtable d8 h8, length_Rtable d9 h9,
    length_Rtable d10 h10, length_Rtable d11 h11, length_Rtable d12 h12]

lemma tryDecodeE_encodeCore (d0 d1 d2 d3 d4 d5 d6 d7 d8 d9 d10 d11 d12 : Nat)
    (tail : List Nat)
    (h0 : d0 < 10) (h1 : d1 < 10) (h2 : d2 < 10) (h3 : d3 < 10) (h4 : d4 < 10)
    (h5 : d5 < 10) (h6 : d6 < 10) (h7 : d7 < 10) (h8 : d8 < 10) (h9 : d9 < 10)
    (h10 : d10 < 10) (h11 : d11 < 10) (h12 : d12 < 10)
    (htail : 3 ≤ tail.length)
    (hck : checkDigit [d0,d1,d2,d3,d4,d5,d6,d7,d8,d9,d10,d11,d12] = d12) :
    tryDecodeE (encodeCore d0 d1 d2 d3 d4 d5 d6 d7 d8 d9 d10 d11 d12 ++ tail) 0 =
      .ok (some [d0,d1,d2,d3,d4,d5,d6,d7,d8,d9,d10,d11,d12]) :=
  tryDecodeE_layout
    (encodeCore d0 d1 d2 d3 d4 d5 d6 d7 d8 d9 d10 d11 d12 ++ tail)
    (leftPattern ((FIRST.getD d0 []).getD 0 'L') d1)
    (leftPattern ((FIRST.getD d0 []).getD 1 'L') d2)
    (leftPattern ((FIRST.getD d0 []).getD 2 'L') d3)
    (leftPattern ((FIRST.getD d0 []).getD 3 'L') d4)
    (leftPattern ((FIRST.getD d0 []).getD 4 'L') d5)
    (leftPattern ((FIRST.getD d0 []).getD 5 'L') d6)
    (Rtable.getD d7 []) (Rtable.getD d8 []) (Rtable.getD d9 [])
    (Rtable.getD d10 []) (Rtable.getD d11 []) (Rtable.getD d12 [])
    tail d0 d1 d2 d3 d4 d5 d6 d7 d8 d9 d10 d11 d12
    ((FIRST.getD d0 []).getD 0 'L') ((FIRST.getD d0 []).getD 1 'L')
    ((FIRST.getD d0 []).getD 2 'L') ((FIRST.getD d0 []).getD 3 'L')
    ((FIRST.getD d0 []).getD 4 'L') ((FIRST.getD d0 []).getD 5 'L')
    (length_leftPattern (parity_entry d0 h0 0 (by norm_num)) h1)
    (length_leftPattern (parity_entry d0 h0 1 (by norm_num)) h2)
    (length_leftPattern (parity_entry d0 h0 2 (by norm_num)) h3)
    (length_leftPattern (parity_entry d0 h0 3 (by norm_num)) h4)
    (length_leftPattern (parity_entry d0 h0 4 (by norm_num)) h5)
    (length_leftPattern (parity_entry d0 h0 5 (by norm_num)) h6)
    (length_Rtable d7 h7) (length_Rtable d8 h8) (length_Rtable d9 h9)
    (length_Rtable d10 h10) (length_Rtable d11 h11) (length_Rtable d12 h12)
    (matchLG_leftPattern (parity_entry d0 h0 0 (by norm_num)) h1)
    (matchLG_leftPattern (parity_entry d0 h0 1 (by norm_num)) h2)
    (matchLG_leftPattern (parity_entry d0 h0 2 (by norm_num)) h3)
    (matchLG_leftPattern (parity_entry d0 h0 3 (by norm_num)) h4)
    (matchLG_leftPattern (parity_entry d0 h0 4 (by norm_num)) h5)
    (matchLG_leftPattern (parity_entry d0 h0 5 (by norm_num)) h6)
    (matchR_Rtable d7 h7) (matchR_Rtable d8 h8) (matchR_Rtable d9 h9)
    (matchR_Rtable d10 h10) (matchR_Rtable d11 h11) (matchR_Rtable d12 h12)
    (by rw [parity_list d0 h0]; exact firstDigitOf_FIRST d0 h0)
    htail hck
    (by simp only [encodeCore, List.append_assoc])

lemma isCandidate_encodeCore (d0 d1 d2 d3 d4 d5 d6 d7 d8 d9 d10 d11 d12 : Nat)
    (tail : List Nat) :
    isCandidate (encodeCore d0 d1 d2 d3 d4 d5 d6 d7 d8 d9 d10 d11 d12 ++ tail) 0 = true := by
  simp [encodeCore, isCandidate, List.append_assoc]

/-- C2 (amended): for every 13-digit string with a valid EAN-13 checksum,
encoding it into the standard bit layout and following it by at least one
further module (here a single `0` bit) makes the SymbolDecoder return that
same string; on the bare 95-module layout the scan range `[0, len - 95)` is
empty, so at least one trailing module is required (see the
counterexample). -/
theorem c2_roundtrip (d0 d1 d2 d3 d4 d5 d6 d7 d8 d9 d10 d11 d12 : Nat)
    (h0 : d0 < 10) (h1 : d1 < 10) (h2 : d2 < 10) (h3 : d3 < 10) (h4 : d4 < 10)
    (h5 : d5 < 10) (h6 : d6 < 10) (h7 : d7 < 10) (h8 : d8 < 10) (h9 : d9 < 10)
    (h10 : d10 < 10) (h11 : d11 < 10) (h12 : d12 < 10)
    (hck : checkDigit [d0,d1,d2,d3,d4,d5,d6,d7,d8,d9,d10,d11,d12] = d12) :
    findEan13 (encodeEan13 d0 d1 d2 d3 d4 d5 d6 d7 d8 d9 d10 d11 d12 ++ [0]) =
      some [d0,d1,d2,d3,d4,d5,d6,d7,d8,d9,d10,d11,d12] := by
  have hB : encodeEan13 d0 d1 d2 d3 d4 d5 d6 d7 d8 d9 d10 d11 d12 ++ [0] =
      encodeCore d0 d1 d2 d3 d4 d5 d6 d7 d8 d9 d10 d11 d12 ++ [1,0,1,0] := by
    simp only [encodeEan13, List.append_assoc]
    rfl
  have hdec : tryDecodeE
      (encodeCore d0 d1 d2 d3 d4 d5 d6 d7 d8 d9 d10 d11 d12 ++ [1,0,1,0]) 0 =
      .ok (some [d0,d1,d2,d3,d4,d5,d6,d7,d8,d9,d10,d11,d12]) :=
    tryDecodeE_encodeCore d0 d1 d2 d3 d4 d5 d6 d7 d8 d9 d10 d11 d12 [1,0,1,0]
      h0 h1 h2 h3 h4 h5 h6 h7 h8 h9 h10 h11 h12 (by norm_num) hck
  have hlen : (encodeCore d0 d1 d2 d3 d4 d5 d6 d7 d8 d9 d10 d11 d12 ++
      [1,0,1,0]).length = 96 := by
    rw [List.length_append,
      length_encodeCore d0 d1 d2 d3 d4 d5 d6 d7 d8 d9 d10 d11 d12
        h0 h1 h2 h3 h4 h5 h6 h7 h8 h9 h10 h11 h12]
    rfl
  rw [hB]
  unfold findEan13
  rw [hlen, if_neg (by norm_num)]
  have hrange : List.range (96 - 95) = [0] := by decide
  rw [hrange, scanStarts_cons, isCandidate_encodeCore, if_pos rfl,
    tryDecode_eq, hdec]

/-- C2 counterexample: the checksum-valid code `6901234567892`, encoded into
the standard 95-module layout exactly as the claim prescribes, is NOT
decoded: `_find_ean13` scans `range(len - 95)`, which is empty at exactly
95 bits. -/
theorem c2_counterexample :
    checkDigit [6,9,0,1,2,3,4,5,6,7,8,9,2] = 2 ∧
    (encodeEan13 6 9 0 1 2 3 4 5 6 7 8 9 2).length = 95 ∧
    findEan13 (encodeEan13 6 9 0 1 2 3 4 5 6 7 8 9 2) = none := by decide

/-- C2 witness: the amended round trip at the concrete code `6901234567892`. -/
theorem c2_roundtrip_witness :
    findEan13 (encodeEan13 6 9 0 1 2 3 4 5 6 7 8 9 2 ++ [0]) =
      some [6,9,0,1,2,3,4,5,6,7,8,9,2] :=
  c2_roundtrip 6 9 0 1 2 3 4 5 6 7 8 9 2 (by decide) (by decide) (by decide)
    (by decide) (by decide) (by decide) (by decide) (by decide) (by decide)
    (by decide) (by decide) (by decide) (by decide) (by decide)

lemma tryDecode_some_length (binary : List Nat) (i : Nat) (r : List Nat)
    (h : tryDecode binary i = some r) : i + 95 ≤ binary.length := by
  rw [tryDecode_eq] at h
  cases hx : tryDecodeE binary i with
  | error e =>
    rw [hx] at h
    exact absurd h (by simp)
  | ok x =>
    rw [hx] at h
    have h2 : x = some r := h
    rw [h2] at hx
    unfold tryDecodeE at hx
    split at hx
    · exact absurd hx (by simp)
    · next hg => omega

lemma tryDecode_none_of_92 (binary : List Nat) (i : Nat)
    (h : binary.length = i + 92) : tryDecode binary i = none := by
  rw [tryDecode_eq]
  have hnone : tryDecodeE binary i = .ok none := by
    unfold tryDecodeE
    rw [if_pos (by omega)]
  rw [hnone]

/-- C5 (amended): for every binary line and every candidate start `i`,
`_try_decode` succeeds only when the first 95 bits from the start-guard
position lie within the line — its length guard
`start + 3 + 42 + 5 + 42 + 3 ≤ len` reserves room for the 3 end-guard
modules — so a candidate start with exactly 92 bits available from `i`
never decodes; yet the end-guard bit values themselves are never compared:
the 92 decodable modules of any checksum-valid code followed by any three
bits `x, y, z` decode to that code. -/
theorem c5_end_guard :
    (∀ (binary : List Nat) (i : Nat) (r : List Nat),
      tryDecode binary i = some r → i + 95 ≤ binary.length) ∧
    (∀ (binary : List Nat) (i : Nat), binary.length = i + 92 →
      tryDecode binary i = none) ∧
    (∀ d0 d1 d2 d3 d4 d5 d6 d7 d8 d9 d10 d11 d12 x y z : Nat,
      d0 < 10 → d1 < 10 → d2 < 10 → d3 < 10 → d4 < 10 → d5 < 10 → d6 < 10 →
      d7 < 10 → d8 < 10 → d9 < 10 → d10 < 10 → d11 < 10 → d12 < 10 →
      checkDigit [d0,d1,d2,d3,d4,d5,d6,d7,d8,d9,d10,d11,d12] = d12 →
      tryDecode
          (encodeCore d0 d1 d2 d3 d4 d5 d6 d7 d8 d9 d10 d11 d12 ++ [x, y, z]) 0 =
        some [d0,d1,d2,d3,d4,d5,d6,d7,d8,d9,d10,d11,d12]) := by
  refine ⟨tryDecode_some_length, tryDecode_none_of_92, ?_⟩
  intro d0 d1 d2 d3 d4 d5 d6 d7 d8 d9 d10 d11 d12 x y z
  intro h0 h1 h2 h3 h4 h5 h6 h7 h8 h9 h10 h11 h12 hck
  rw [tryDecode_eq,
    tryDecodeE_encodeCore d0 d1 d2 d3 d4 d5 d6 d7 d8 d9 d10 d11 d12 [x, y, z]
      h0 h1 h2 h3 h4 h5 h6 h7 h8 h9 h10 h11 h12 (by simp) hck]

/-- C5 witness: a successful decode at start 0 forces 95 bits of line; the
bare 92-bit core of `6901234567892` never decodes; the same core followed
by `0,0,0` (not the end guard) decodes. -/
theorem c5_end_guard_witness :
    0 + 95 ≤ (encodeCore 6 9 0 1 2 3 4 5 6 7 8 9 2 ++ [0, 0, 0]).length ∧
    tryDecode (encodeCore 6 9 0 1 2 3 4 5 6 7 8 9 2) 0 = none ∧
    tryDecode (encodeCore 6 9 0 1 2 3 4 5 6 7 8 9 2 ++ [0, 0, 0]) 0 =
      some [6,9,0,1,2,3,4,5,6,7,8,9,2] :=
  ⟨c5_end_guard.1 (encodeCore 6 9 0 1 2 3 4 5 6 7 8 9 2 ++ [0, 0, 0]) 0
      [6,9,0,1,2,3,4,5,6,7,8,9,2] (by decide),
   c5_end_guard.2.1 (encodeCore 6 9 0 1 2 3 4 5 6 7 8 9 2) 0 (by decide),
   c5_end_guard.2.2 6 9 0 1 2 3 4 5 6 7 8 9 2 0 0 0 (by decide) (by decide)
     (by decide) (by decide) (by decide) (by decide) (by decide) (by decide)
     (by decide) (by decide) (by decide) (by decide) (by decide) (by decide)⟩

/-- C5 counterexample: at a candidate start with exactly 92 bits available —
the full 92 modules of data of the checksum-valid code `6901234567892` —
`_try_decode` returns `None`, because its length guard demands
`start + 3 + 42 + 5 + 42 + 3 ≤ len`; the same 92 bits followed by any three
bits (here `0,0,0`, not the end guard) do decode. -/
theorem c5_counterexample :
    (encodeCore 6 9 0 1 2 3 4 5 6 7 8 9 2).length = 92 ∧
    tryDecode (encodeCore 6 9 0 1 2 3 4 5 6 7 8 9 2) 0 = none ∧
    tryDecode (encodeCore 6 9 0 1 2 3 4 5 6 7 8 9 2 ++ [0, 0, 0]) 0 =
      some [6,9,0,1,2,3,4,5,6,7,8,9,2] := by decide

/-- C10: on a binary line of exactly 95 bits — the minimum EAN-13 symbol
width — `_find_ean13` returns `None`, because its loop ranges over
`range(len - 95)`, which is empty; consequently a successful decode requires
at least 96 bits. -/
theorem c10_exact_95_not_found (binary : List Nat) :
    (binary.length = 95 → findEan13 binary = none) ∧
    (∀ r, findEan13 binary = some r → 96 ≤ binary.length) := by
  constructor
  · intro h
    unfold findEan13
    rw [h, if_neg (by norm_num)]
    have : List.range (95 - 95) = [] := rfl
    rw [this]
    rfl
  · intro r hr
    unfold findEan13 at hr
    by_cases h : binary.length < 95
    · rw [if_pos h] at hr
      exact absurd hr (by simp)
    · rw [if_neg h] at hr
      by_cases h2 : binary.length - 95 = 0
      · rw [h2] at hr
        simp only [List.range_zero] at hr
        exact absurd hr (by simp [scanStarts])
      · omega

/-- C10 witness: the 95-bit encoding of `6901234567892` is not found, while
the same line with one trailing module (96 bits) is long enough to decode. -/
theorem c10_exact_95_not_found_witness :
    findEan13 (encodeEan13 6 9 0 1 2 3 4 5 6 7 8 9 2) = none ∧
    96 ≤ (encodeEan13 6 9 0 1 2 3 4 5 6 7 8 9 2 ++ [0]).length :=
  ⟨(c10_exact_95_not_found (encodeEan13 6 9 0 1 2 3 4 5 6 7 8 9 2)).1 (by decide),
   (c10_exact_95_not_found (encodeEan13 6 9 0 1 2 3 4 5 6 7 8 9 2 ++ [0])).2
     [6,9,0,1,2,3,4,5,6,7,8,9,2] (by decide)⟩

/-! ### Totality of the decoder (claim C8) -/

lemma decodeLeft_ok : ∀ (n : Nat) (binary : List Nat) (pos : Nat),
    pos + 7 * n ≤ binary.length → ∃ r, decodeLeft binary pos n = .ok r := by
  intro n
  induction n with
  | zero => exact fun binary pos _ => ⟨some ([], []), rfl⟩
  | succ n ih =>
    intro binary pos h
    simp only [decodeLeft]
    split
    · next e heq =>
      unfold readGroup at heq
      rw [if_pos (by omega)] at heq
      exact absurd heq (by simp)
    · next pat heq =>
      split
      · exact ⟨none, rfl⟩
      · next d c hm =>
        split
        · next e heq2 =>
          obtain ⟨r, hrec⟩ := ih binary (pos + 7) (by omega)
          rw [heq2] at hrec
          exact absurd hrec (by simp)
        · exact ⟨none, rfl⟩
        · next ds ts heq2 => exact ⟨some (d :: ds, c :: ts), rfl⟩

lemma decodeRight_ok : ∀ (n : Nat) (binary : List Nat) (pos : Nat),
    pos + 7 * n ≤ binary.length → ∃ r, decodeRight binary pos n = .ok r := by
  intro n
  induction n with
  | zero => exact fun binary pos _ => ⟨some [], rfl⟩
  | succ n ih =>
    intro binary pos h
    simp only [decodeRight]
    split
    · next e heq =>
      unfold readGroup at heq
      rw [if_pos (by omega)] at heq
      exact absurd heq (by simp)
    · next pat heq =>
      split
      · exact ⟨none, rfl⟩
      · next d hm =>
        split
        · next e heq2 =>
          obtain ⟨r, hrec⟩ := ih binary (pos + 7) (by omega)
          rw [heq2] at hrec
          exact absurd hrec (by simp)
        · exact ⟨none, rfl⟩
        · next ds heq2 => exact ⟨some (d :: ds), rfl⟩

lemma tryDecodeE_ok (binary : List Nat) (start : Nat) :
    ∃ r, tryDecodeE binary start = .ok r := by
  unfold tryDecodeE
  split
  · exact ⟨none, rfl⟩
  · next h =>
    split
    · next e heq =>
      obtain ⟨r, hl⟩ := decodeLeft_ok 6 binary (start + 3) (by omega)
      rw [heq] at hl
      exact absurd hl (by simp)
    · exact ⟨none, rfl⟩
    · next lds lts heq =>
      split
      · next e heq2 =>
        obtain ⟨r, hr⟩ := decodeRight_ok 6 binary (start + 3 + 42 + 5) (by omega)
        rw [heq2] at hr
        exact absurd hr (by simp)
      · exact ⟨none, rfl⟩
      · next rds heq2 =>
        split
        · exact ⟨none, rfl⟩
        · next fd hf =>
          split
          · split
            · exact ⟨some (fd :: (lds ++ rds)), rfl⟩
            · exact ⟨none, rfl⟩
          · exact ⟨none, rfl⟩

lemma scanStarts_cons_pos {binary : List Nat} {i : Nat} (rest : List Nat)
    (h : isCandidate binary i = true) :
    scanStarts binary (i :: rest) =
      match tryDecode binary i with
      | some r => some r
      | none => scanStarts binary rest := by
  rw [scanStarts_cons, if_pos h]

lemma scanStarts_cons_neg {binary : List Nat} {i : Nat} (rest : List Nat)
    (h : isCandidate binary i = false) :
    scanStarts binary (i :: rest) = scanStarts binary rest := by
  rw [scanStarts_cons, if_neg (by simp [h])]

lemma scanStartsE_eq (binary : List Nat) : ∀ l : List Nat,
    scanStartsE binary l = .ok (scanStarts binary l) := by
  intro l
  induction l with
  | nil => rfl
  | cons i rest ih =>
    cases hc : isCandidate binary i with
    | false =>
      rw [scanStarts_cons_neg rest hc]
      simp only [scanStartsE]
      rw [if_neg (by simp [hc])]
      exact ih
    | true =>
      rw [scanStarts_cons_pos rest hc]
      simp only [scanStartsE]
      rw [if_pos hc]
      obtain ⟨r, hr⟩ := tryDecodeE_ok binary i
      rw [hr, tryDecode_eq, hr]
      cases r with
      | none => exact ih
      | some v => rfl

/-- C8: for every finite bit sequence, `_find_ean13` (with the exception of
`_try_decode` propagated instead of caught) raises no exception and indexes
nothing out of bounds: the instrumented scan always returns `ok` and agrees
with the plain scan; a candidate start whose groups would run past the end
of the line is disqualified by the length guard without any read. -/
theorem c8_no_exception (binary : List Nat) :
    findEan13E binary = .ok (findEan13 binary) ∧
    ∀ i ∈ List.range (binary.length - 95), i + 2 < binary.length := by
  constructor
  · unfold findEan13E findEan13
    by_cases h : binary.length < 95
    · rw [if_pos h, if_pos h]
    · rw [if_neg h, if_neg h]
      exact scanStartsE_eq binary (List.range (binary.length - 95))
  · intro i hi
    rw [List.mem_range] at hi
    omega

/-- C8 witness: at a concrete 96-bit line the instrumented scan returns `ok`
of the plain result and the scanned offset 0 reads only in-bounds bits. -/
theorem c8_no_exception_witness :
    findEan13E (encodeEan13 6 9 0 1 2 3 4 5 6 7 8 9 2 ++ [0]) =
      .ok (findEan13 (encodeEan13 6 9 0 1 2 3 4 5 6 7 8 9 2 ++ [0])) ∧
    0 + 2 < (encodeEan13 6 9 0 1 2 3 4 5 6 7 8 9 2 ++ [0]).length :=
  ⟨(c8_no_exception (encodeEan13 6 9 0 1 2 3 4 5 6 7 8 9 2 ++ [0])).1,
   (c8_no_exception (encodeEan13 6 9 0 1 2 3 4 5 6 7 8 9 2 ++ [0])).2 0 (by decide)⟩

/-! ### The checksum invariant (claim C1) and the scan order (claim C3) -/

lemma tryDecodeE_valid (binary : List Nat) (start : Nat) (r : List Nat)
    (h : tryDecodeE binary start = .ok (some r)) :
    r.length = 13 ∧ checkDigit r = r.getD 12 0 := by
  unfold tryDecodeE at h
  split at h
  · exact absurd h (by simp)
  · split at h
    · exact absurd h (by simp)
    · exact absurd h (by simp)
    · split at h
      · exact absurd h (by simp)
      · exact absurd h (by simp)
      · split at h
        · exact absurd h (by simp)
        · next fd hf =>
          split at h
          · next h13 =>
            split at h
            · next hc =>
              injection h with h2
              injection h2 with h3
              rw [← h3]
              exact ⟨h13, hc⟩
            · exact absurd h (by simp)
          · exact absurd h (by simp)

lemma tryDecode_valid (binary : List Nat) (start : Nat) (r : List Nat)
    (h : tryDecode binary start = some r) :
    r.length = 13 ∧ checkDigit r = r.getD 12 0 := by
  rw [tryDecode_eq] at h
  obtain ⟨x, hx⟩ := tryDecodeE_ok binary start
  rw [hx] at h
  have h2 : x = some r := h
  rw [h2] at hx
  exact tryDecodeE_valid binary start r hx

lemma scanStarts_some (binary : List Nat) : ∀ (l : List Nat) (r : List Nat),
    scanStarts binary l = some r → ∃ i, tryDecode binary i = some r := by
  intro l
  induction l with
  | nil => intro r h; exact absurd h (by simp [scanStarts])
  | cons i rest ih =>
    intro r h
    cases hc : isCandidate binary i with
    | false =>
      rw [scanStarts_cons_neg rest hc] at h
      exact ih r h
    | true =>
      rw [scanStarts_cons_pos rest hc] at h
      cases hd : tryDecode binary i with
      | none => rw [hd] at h; exact ih r h
      | some v =>
        rw [hd] at h
        have hv : some v = some r := h
        exact ⟨i, hd.trans hv⟩

lemma findEan13_valid (binary : List Nat) (r : List Nat)
    (h : findEan13 binary = some r) :
    r.length = 13 ∧ checkDigit r = r.getD 12 0 := by
  unfold findEan13 at h
  split at h
  · exact absurd h (by simp)
  · obtain ⟨i, hi⟩ := scanStarts_some binary _ r h
    exact tryDecode_valid binary i r hi

lemma bump_keys : ∀ (m : List (List Nat × Nat)) (k : List Nat)
    (p : List Nat × Nat), p ∈ bump m k → p.1 = k ∨ ∃ q ∈ m, p.1 = q.1 := by
  intro m k
  induction m with
  | nil =>
    intro p hp
    simp only [bump, List.mem_singleton] at hp
    left
    rw [hp]
  | cons q rest ih =>
    intro p hp
    simp only [bump] at hp
    split at hp
    · rcases List.mem_cons.mp hp with h1 | h2
      · right
        exact ⟨q, List.mem_cons_self q rest, by rw [h1]⟩
      · right
        exact ⟨p, List.mem_cons_of_mem q h2, rfl⟩
    · rcases List.mem_cons.mp hp with h1 | h2
      · right
        exact ⟨q, List.mem_cons_self q rest, by rw [h1]⟩
      · rcases ih p h2 with h3 | ⟨q2, hq2, h4⟩
        · left; exact h3
        · right; exact ⟨q2, List.mem_cons_of_mem q hq2, h4⟩

lemma lineResult_decode (g : Grid) (pct : Nat) (b : List Nat)
    (h : lineResult g pct = some b) :
    findEan13 (binarize (rowAt g pct)) = some b := by
  unfold lineResult at h
  split at h
  · exact absurd h (by simp)
  · exact h

lemma scanVotes_sound (g : Grid) : ∀ (l : List Nat) (m : List (List Nat × Nat)),
    (∀ p ∈ m, p.1.length = 13 ∧ checkDigit p.1 = p.1.getD 12 0) →
    ∀ p ∈ l.foldl (lineStep g) m, p.1.length = 13 ∧ checkDigit p.1 = p.1.getD 12 0 := by
  intro l
  induction l with
  | nil => intro m hm p hp; exact hm p hp
  | cons pct rest ih =>
    intro m hm p hp
    rw [List.foldl_cons] at hp
    refine ih (lineStep g m pct) ?_ p hp
    intro q hq
    unfold lineStep at hq
    split at hq
    · next b hb =>
      rcases bump_keys m b q hq with h1 | ⟨q2, hq2, heq⟩
      · rw [h1]
        exact findEan13_valid _ b (lineResult_decode g pct b hb)
      · rw [heq]
        exact hm q2 hq2
    · exact hm q hq

/-- C1: every 13-digit string emitted by `_find_ean13` has a valid EAN-13
checksum — with `total = Σ digit[i] * (1 if i % 2 == 0 else 3)` over
positions `0..11`, `(10 - total % 10) % 10` equals digit 12 — and hence so
does every key ever inserted into the orchestrator vote map; a string with
an invalid checksum is never emitted. -/
theorem c1_checksum_invariant :
    (∀ binary r, findEan13 binary = some r →
      r.length = 13 ∧ (10 - checksumTotal r % 10) % 10 = r.getD 12 0) ∧
    (∀ g : Grid, ∀ p ∈ scanVotes g,
      p.1.length = 13 ∧ (10 - checksumTotal p.1 % 10) % 10 = p.1.getD 12 0) := by
  constructor
  · exact fun binary r h => findEan13_valid binary r h
  · intro g p hp
    exact scanVotes_sound g linePcts [] (by simp) p hp

/-- C1 witness: the concrete decode of the padded encoding of `6901234567892`
satisfies the checksum invariant. -/
theorem c1_checksum_invariant_witness :
    [6,9,0,1,2,3,4,5,6,7,8,9,2].length = 13 ∧
    (10 - checksumTotal [6,9,0,1,2,3,4,5,6,7,8,9,2] % 10) % 10 =
      [6,9,0,1,2,3,4,5,6,7,8,9,2].getD 12 0 :=
  c1_checksum_invariant.1 (encodeEan13 6 9 0 1 2 3 4 5 6 7 8 9 2 ++ [0])
    [6,9,0,1,2,3,4,5,6,7,8,9,2] (by decide)

lemma scanStarts_eq_findSome (binary : List Nat) : ∀ l : List Nat,
    scanStarts binary l =
      (l.filter (isCandidate binary)).findSome? (tryDecode binary) := by
  intro l
  induction l with
  | nil => rfl
  | cons i rest ih =>
    cases hc : isCandidate binary i with
    | false =>
      rw [scanStarts_cons_neg rest hc, List.filter_cons_of_neg (by simp [hc]), ih]
    | true =>
      rw [scanStarts_cons_pos rest hc, List.filter_cons_of_pos hc,
        List.findSome?_cons]
      cases hd : tryDecode binary i with
      | none => rw [ih]
      | some v => rfl

/-- C3: `_find_ean13` examines exactly the offsets `[0, len - 95)`, treats
an offset as a candidate start exactly when bits `i, i+1, i+2` are `1,0,1`,
and returns the result of the leftmost candidate start that decodes
successfully, `none` (not an error) when no candidate validates — i.e. it
coincides with the declarative first-success scan `findEan13Spec`. -/
theorem c3_leftmost_scan (binary : List Nat) :
    findEan13 binary = findEan13Spec binary := by
  unfold findEan13 findEan13Spec
  split
  · next h =>
    have h0 : binary.length - 95 = 0 := by omega
    rw [h0]
    rfl
  · exact scanStarts_eq_findSome binary (List.range (binary.length - 95))

/-! ### The vote map (claims C4 and C7) -/

lemma maxVoteAux_spec : ∀ (rest : List (List Nat × Nat)) (bk : List Nat) (bv : Nat),
    (maxVoteAux bk bv rest = bk ∧ ∀ p ∈ rest, p.2 ≤ bv) ∨
    (∃ pre v suf, rest = pre ++ (maxVoteAux bk bv rest, v) :: suf ∧ bv < v ∧
      (∀ p ∈ pre, p.2 < v) ∧ (∀ p ∈ suf, p.2 ≤ v)) := by
  intro rest
  induction rest with
  | nil =>
    intro bk bv
    left
    exact ⟨rfl, by simp⟩
  | cons q rest ih =>
    intro bk bv
    obtain ⟨k, v⟩ := q
    simp only [maxVoteAux]
    split
    · next hgt =>
      rcases ih k v with ⟨heq, hle⟩ | ⟨pre, v2, suf, heq, hlt, hpre, hsuf⟩
      · right
        refine ⟨[], v, rest, ?_, hgt, by simp, hle⟩
        rw [heq]
        simp
      · right
        refine ⟨(k, v) :: pre, v2, suf, ?_, lt_trans hgt hlt, ?_, hsuf⟩
        · simp only [List.cons_append]
          exact congrArg (fun t => (k, v) :: t) heq
        · intro p hp
          rcases List.mem_cons.mp hp with h1 | h1
          · rw [h1]
            exact hlt
          · exact hpre p h1
    · next hng =>
      rcases ih bk bv with ⟨heq, hle⟩ | ⟨pre, v2, suf, heq, hlt, hpre, hsuf⟩
      · left
        refine ⟨heq, ?_⟩
        intro p hp
        rcases List.mem_cons.mp hp with h1 | h1
        · rw [h1]
          omega
        · exact hle p h1
      · right
        refine ⟨(k, v) :: pre, v2, suf, ?_, hlt, ?_, hsuf⟩
        · simp only [List.cons_append]
          exact congrArg (fun t => (k, v) :: t) heq
        · intro p hp
          rcases List.mem_cons.mp hp with h1 | h1
          · rw [h1]
            simp only []
            omega
          · exact hpre p h1

lemma maxVote_none_iff (m : List (List Nat × Nat)) : maxVote m = none ↔ m = [] := by
  cases m with
  | nil => simp [maxVote]
  | cons q rest =>
    obtain ⟨k, v⟩ := q
    simp [maxVote]

lemma maxVote_spec (m : List (List Nat × Nat)) (k : List Nat) (h : maxVote m = some k) :
    ∃ pre v suf, m = pre ++ (k, v) :: suf ∧
      (∀ p ∈ pre, p.2 < v) ∧ (∀ p ∈ suf, p.2 ≤ v) := by
  cases m with
  | nil => simp [maxVote] at h
  | cons q rest =>
    obtain ⟨k0, v0⟩ := q
    simp only [maxVote] at h
    injection h with h2
    rcases maxVoteAux_spec rest k0 v0 with ⟨heq, hle⟩ | ⟨pre, v, suf, heq, hlt, hpre, hsuf⟩
    · refine ⟨[], v0, rest, ?_, by simp, hle⟩
      rw [← h2, heq]
      simp
    · refine ⟨(k0, v0) :: pre, v, suf, ?_, ?_, hsuf⟩
      · rw [← h2]
        simp only [List.cons_append]
        exact congrArg (fun t => (k0, v0) :: t) heq
      · intro p hp
        rcases List.mem_cons.mp hp with h1 | h1
        · rw [h1]
          exact hlt
        · exact hpre p h1

/-- C4: when the vote map is empty the orchestrator reports no barcode
(`none`); when it is non-empty, `max(barcodes_found, key=barcodes_found.get)`
returns the key whose count is maximal, and in a tie the first-inserted key
wins: the returned key strictly exceeds every earlier entry and is at least
every later one; `_try_pure_python` is exactly this maximum over the vote
map built by the scan. -/
theorem c4_most_voted (m : List (List Nat × Nat)) :
    (maxVote m = none ↔ m = []) ∧
    (∀ k, maxVote m = some k → ∃ pre v suf,
      m = pre ++ (k, v) :: suf ∧ (∀ p ∈ pre, p.2 < v) ∧ (∀ p ∈ suf, p.2 ≤ v)) ∧
    (∀ g : Grid, tryPurePython g = maxVote (scanVotes g)) :=
  ⟨maxVote_none_iff m, fun k h => maxVote_spec m k h, fun _ => rfl⟩

/-- C4 witness: on the concrete vote map with keys `[1]`, `[2]`, `[3]` and
counts `2, 2, 1` the tie at count 2 is broken in favour of the
first-inserted key `[1]`. -/
theorem c4_most_voted_witness :
    ∃ pre v suf,
      [(([1] : List Nat), 2), ([2], 2), ([3], 1)] = pre ++ (([1] : List Nat), v) :: suf ∧
      (∀ p ∈ pre, p.2 < v) ∧ (∀ p ∈ suf, p.2 ≤ v) :=
  (c4_most_voted [([1], 2), ([2], 2), ([3], 1)]).2.1 [1] (by decide)

lemma scanVotes_nil (g : Grid) (h : ∀ pct ∈ linePcts, lineResult g pct = none) :
    scanVotes g = [] := by
  unfold scanVotes
  suffices h2 : ∀ (l : List Nat) (m : List (List Nat × Nat)),
      (∀ pct ∈ l, lineResult g pct = none) → l.foldl (lineStep g) m = m by
    exact h2 linePcts [] h
  intro l
  induction l with
  | nil => intro m _; rfl
  | cons pct rest ih =>
    intro m hm
    rw [List.foldl_cons]
    have h1 : lineResult g pct = none := hm pct (List.mem_cons_self _ _)
    have h2 : lineStep g m pct = m := by
      unfold lineStep
      rw [h1]
    rw [h2]
    exact ih m (fun q hq => hm q (List.mem_cons_of_mem _ hq))

/-- C7: on every grid where no sampled line produces a decode — each
scheduled line is either shorter than 100 pixels (as in an empty or
zero-dimension grid) or fails to yield a checksum-valid symbol — the
orchestrator `_try_pure_python` returns `none` (the no-barcode outcome) and
never a digit string. -/
theorem c7_no_barcode (g : Grid)
    (h : ∀ pct ∈ linePcts, lineResult g pct = none) :
    tryPurePython g = none := by
  unfold tryPurePython
  rw [scanVotes_nil g h]
  rfl

/-- C7 witness: the empty 0-by-0 grid and a uniform 100-by-1 grid of
intensity 7 both yield the no-barcode outcome. -/
theorem c7_no_barcode_witness :
    tryPurePython ⟨0, 0, []⟩ = none ∧
    tryPurePython ⟨100, 1, List.replicate 100 7⟩ = none :=
  ⟨c7_no_barcode ⟨0, 0, []⟩ (by decide),
   c7_no_barcode ⟨100, 1, List.replicate 100 7⟩ (by decide)⟩

/-! ### Basic facts about the Otsu histogram sums -/

lemma Wsum_succ (hist : List Nat) (n : Nat) :
    Wsum hist (n + 1) = Wsum hist n + hist.getD n 0 := by
  unfold Wsum
  rw [List.range_succ, List.map_append, List.sum_append]
  simp

lemma Ssum_succ (hist : List Nat) (n : Nat) :
    Ssum hist (n + 1) = Ssum hist n + n * hist.getD n 0 := by
  unfold Ssum
  rw [List.range_succ, List.map_append, List.sum_append]
  simp

lemma Wsum_mono (hist : List Nat) : ∀ {m n : Nat}, m ≤ n → Wsum hist m ≤ Wsum hist n := by
  intro m n h
  induction n with
  | zero =>
    have : m = 0 := by omega
    rw [this]
  | succ n ih =>
    by_cases h2 : m = n + 1
    · rw [h2]
    · have h3 : m ≤ n := by omega
      calc Wsum hist m ≤ Wsum hist n := ih h3
        _ ≤ Wsum hist (n + 1) := by rw [Wsum_succ]; omega

lemma varAt_nonneg (pixels : List Nat) (i : Nat) : 0 ≤ varAt pixels i := by
  unfold varAt
  split
  · exact le_refl 0
  · split
    · exact le_refl 0
    · positivity

lemma varAt_of_pos (pixels : List Nat) (i : Nat)
    (h1 : ¬ Wsum (buildHist pixels) (i + 1) = 0)
    (h2 : ¬ pixels.length - Wsum (buildHist pixels) (i + 1) = 0) :
    varAt pixels i =
      (Wsum (buildHist pixels) (i + 1) : ℚ) *
        ((pixels.length - Wsum (buildHist pixels) (i + 1) : Nat) : ℚ) *
        ((Ssum (buildHist pixels) (i + 1) : ℚ) / (Wsum (buildHist pixels) (i + 1) : ℚ) -
          ((Ssum (buildHist pixels) 256 : ℚ) - (Ssum (buildHist pixels) (i + 1) : ℚ)) /
            ((pixels.length - Wsum (buildHist pixels) (i + 1) : Nat) : ℚ)) ^ 2 := by
  unfold varAt
  rw [if_neg h1, if_neg h2]

lemma varAt_zero_of_empty (pixels : List Nat) (i : Nat)
    (h : Wsum (buildHist pixels) (i + 1) = 0) : varAt pixels i = 0 := by
  unfold varAt
  rw [if_pos h]

lemma varAt_zero_of_full (pixels : List Nat) (i : Nat)
    (h : pixels.length ≤ Wsum (buildHist pixels) (i + 1)) : varAt pixels i = 0 := by
  unfold varAt
  split
  · rfl
  · rw [if_pos (by omega)]

/-- The loop invariant of `_otsu_threshold` after the iterations `0 .. n-1`:
the running weight and weighted sum are the histogram prefix sums, the
running maximum dominates every variance seen so far, the recorded threshold
is the first index attaining a positive maximum (128 when none is positive),
and once the `break` has fired every remaining variance is zero. -/
def OtsuInv (pixels : List Nat) (n : Nat) (s : OtsuState) : Prop :=
  0 ≤ s.maxVariance ∧
  (∀ j, j < n → varAt pixels j ≤ s.maxVariance) ∧
  (s.maxVariance = 0 → s.threshold = 128) ∧
  (s.maxVariance ≠ 0 →
    varAt pixels s.threshold = s.maxVariance ∧
    ∀ j, j < s.threshold → varAt pixels j < s.maxVariance) ∧
  (s.stopped = true → ∀ j, n ≤ j → varAt pixels j = 0) ∧
  (s.stopped = false →
    s.weightBg = Wsum (buildHist pixels) n ∧ s.sumBg = Ssum (buildHist pixels) n)

lemma otsuStep_inv (pixels : List Nat) (n : Nat) (s : OtsuState)
    (hinv : OtsuInv pixels n s) :
    OtsuInv pixels (n + 1)
      (otsuStep pixels.length (Ssum (buildHist pixels) 256) (buildHist pixels) s n) := by
  obtain ⟨ha, hb, hc, hd, hstop, hrun⟩ := hinv
  unfold otsuStep
  split
  · next hs =>
    refine ⟨ha, ?_, hc, hd, ?_, ?_⟩
    · intro j hj
      by_cases hjn : j < n
      · exact hb j hjn
      · have hjn2 : j = n := by omega
        rw [hjn2, hstop hs n (le_refl n)]
        exact ha
    · intro _ j hj
      exact hstop hs j (by omega)
    · intro hs2
      rw [hs2] at hs
      exact absurd hs (by simp)
  · next hs =>
    have hsf : s.stopped = false := by
      cases h : s.stopped
      · rfl
      · exact absurd h hs
    obtain ⟨hwbg, hsbg⟩ := hrun hsf
    have hW : s.weightBg + (buildHist pixels).getD n 0 =
        Wsum (buildHist pixels) (n + 1) := by
      rw [Wsum_succ, hwbg]
    have hS : s.sumBg + n * (buildHist pixels).getD n 0 =
        Ssum (buildHist pixels) (n + 1) := by
      rw [Ssum_succ, hsbg]
    split
    · next hw0 =>
      refine ⟨ha, ?_, hc, hd, ?_, ?_⟩
      · intro j hj
        by_cases hjn : j < n
        · exact hb j hjn
        · have hjn2 : j = n := by omega
          rw [hjn2, varAt_zero_of_empty pixels n (by rw [← hW]; exact hw0)]
          exact ha
      · intro hs2
        exact absurd (hsf.symm.trans hs2) (by simp)
      · intro _
        refine ⟨hW, ?_⟩
        show s.sumBg = Ssum (buildHist pixels) (n + 1)
        have hg : (buildHist pixels).getD n 0 = 0 := by omega
        rw [hsbg, Ssum_succ, hg]
        omega
    · next hw0 =>
      split
      · next hf0 =>
        have hfull : pixels.length ≤ Wsum (buildHist pixels) (n + 1) := by
          rw [← hW]
          omega
        refine ⟨ha, ?_, hc, hd, ?_, ?_⟩
        · intro j hj
          by_cases hjn : j < n
          · exact hb j hjn
          · have hjn2 : j = n := by omega
            rw [hjn2, varAt_zero_of_full pixels n hfull]
            exact ha
        · intro _ j hj
          refine varAt_zero_of_full pixels j ?_
          calc pixels.length ≤ Wsum (buildHist pixels) (n + 1) := hfull
            _ ≤ Wsum (buildHist pixels) (j + 1) := Wsum_mono _ (by omega)
        · intro hs2
          exact absurd hs2 (by simp)
      · next hf0 =>
        have h1 : ¬ Wsum (buildHist pixels) (n + 1) = 0 := by
          rw [← hW]
          exact hw0
        have h2 : ¬ pixels.length - Wsum (buildHist pixels) (n + 1) = 0 := by
          rw [← hW]
          exact hf0
        have hvar := varAt_of_pos pixels n h1 h2
        rw [hW, hS, ← hvar]
        split
        · next hgt =>
          have hpos : 0 < varAt pixels n := lt_of_le_of_lt ha hgt
          refine ⟨le_of_lt hpos, ?_, ?_, ?_, ?_, ?_⟩
          · intro j hj
            by_cases hjn : j < n
            · exact le_of_lt (lt_of_le_of_lt (hb j hjn) hgt)
            · have hjn2 : j = n := by omega
              rw [hjn2]
          · intro h0
            exact absurd h0 (ne_of_gt hpos)
          · intro _
            exact ⟨rfl, fun j hj => lt_of_le_of_lt (hb j hj) hgt⟩
          · intro hs2
            exact absurd hs2 (by simp)
          · intro _
            exact ⟨rfl, rfl⟩
        · next hgt =>
          have hle : varAt pixels n ≤ s.maxVariance := le_of_not_lt hgt
          refine ⟨ha, ?_, hc, hd, ?_, ?_⟩
          · intro j hj
            by_cases hjn : j < n
            · exact hb j hjn
            · have hjn2 : j = n := by omega
              rw [hjn2]
              exact hle
          · intro hs2
            exact absurd (hsf.symm.trans hs2) (by simp)
          · intro _
            exact ⟨rfl, rfl⟩

lemma otsu_fold_inv (pixels : List Nat) : ∀ n : Nat,
    OtsuInv pixels n ((List.range n).foldl
      (otsuStep pixels.length (Ssum (buildHist pixels) 256) (buildHist pixels))
      ⟨0, 0, 0, 128, false⟩) := by
  intro n
  induction n with
  | zero =>
    refine ⟨le_refl 0, by omega, fun _ => rfl, fun h0 => absurd rfl h0, ?_, ?_⟩
    · intro h
      exact absurd h (by simp)
    · intro _
      exact ⟨rfl, rfl⟩
  | succ n ih =>
    rw [List.range_succ, List.foldl_append, List.foldl_cons, List.foldl_nil]
    exact otsuStep_inv pixels n _ ih

/-- C6 (amended): for every non-empty pixel sequence, the threshold `t`
returned by `_otsu_threshold` maximizes the between-class variance of the
partitions `(≤ t)` / `(> t)` of the histogram — the background class of the
loop includes the threshold bin, not `(< t)` / `(≥ t)` as stated (see the
counterexample) — and binarization `bit(p) = 0 if p < t else 1` produces a
line of the same length as the input. -/
theorem c6_otsu_argmax (pixels : List Nat) (hne : pixels ≠ []) :
    (∀ i, i < 256 → varAt pixels i ≤ varAt pixels (otsuThreshold pixels)) ∧
    (binarize pixels).length = pixels.length := by
  constructor
  · intro i hi
    obtain ⟨ha, hb, hc, hd, _, _⟩ := otsu_fold_inv pixels 256
    unfold otsuThreshold
    rw [if_neg hne]
    by_cases h0 : ((List.range 256).foldl
        (otsuStep pixels.length (Ssum (buildHist pixels) 256) (buildHist pixels))
        ⟨0, 0, 0, 128, false⟩).maxVariance = 0
    · rw [hc h0]
      calc varAt pixels i ≤ _ := hb i hi
        _ = 0 := h0
        _ ≤ varAt pixels 128 := varAt_nonneg pixels 128
    · obtain ⟨heq, _⟩ := hd h0
      rw [heq]
      exact hb i hi
  · simp [binarize]

/-- C6 witness: the amended claim at the concrete input `[0, 255]` and
candidate threshold `3`. -/
theorem c6_otsu_argmax_witness :
    varAt [0, 255] 3 ≤ varAt [0, 255] (otsuThreshold [0, 255]) ∧
    (binarize [0, 255]).length = ([0, 255] : List Nat).length :=
  ⟨(c6_otsu_argmax [0, 255] (by decide)).1 3 (by decide),
   (c6_otsu_argmax [0, 255] (by decide)).2⟩

/-! ### List index helpers for histogram reasoning -/

lemma getD_replicate_zero : ∀ (m t : Nat), (List.replicate m (0:Nat)).getD t 0 = 0 := by
  intro m
  induction m with
  | zero => intro t; rfl
  | succ m ih =>
    intro t
    cases t with
    | zero => rfl
    | succ t => exact ih t

lemma getD_set_self : ∀ (l : List Nat) (k c : Nat), k < l.length →
    (l.set k c).getD k 0 = c := by
  intro l
  induction l with
  | nil => intro k c hk; exact absurd hk (by simp)
  | cons a l ih =>
    intro k c hk
    cases k with
    | zero => rfl
    | succ k => exact ih k c (by simpa using hk)

lemma getD_set_ne : ∀ (l : List Nat) (k c t : Nat), t ≠ k →
    (l.set k c).getD t 0 = l.getD t 0 := by
  intro l
  induction l with
  | nil => intro k c t _; rfl
  | cons a l ih =>
    intro k c t ht
    cases k with
    | zero =>
      cases t with
      | zero => exact absurd rfl ht
      | succ t => rfl
    | succ k =>
      cases t with
      | zero => rfl
      | succ t => exact ih k c t (by omega)

lemma getD_of_ge_length : ∀ (l : List Nat) (t : Nat), l.length ≤ t →
    l.getD t 0 = 0 := by
  intro l
  induction l with
  | nil => intro t _; rfl
  | cons a l ih =>
    intro t ht
    cases t with
    | zero => simp at ht
    | succ t => exact ih t (by simpa using ht)

/-! ### The Thresholder is total (claim C9) -/

lemma buildHist_replicate_aux : ∀ (m v : Nat) (h : List Nat), min 255 v < h.length →
    List.foldl (fun h p => h.set (min 255 p) (h.getD (min 255 p) 0 + 1)) h
        (List.replicate (m + 1) v) =
      h.set (min 255 v) (h.getD (min 255 v) 0 + (m + 1)) := by
  intro m
  induction m with
  | zero => intro v h _; rfl
  | succ m ih =>
    intro v h hk
    rw [List.replicate_succ, List.foldl_cons]
    rw [ih v _ (by simpa using hk)]
    rw [getD_set_self _ _ _ (by simpa using hk)]
    rw [List.set_set]
    congr 1
    omega

lemma buildHist_replicate (v n : Nat) :
    buildHist (List.replicate (n + 1) v) =
      (List.replicate 256 0).set (min 255 v) (n + 1) := by
  unfold buildHist
  rw [buildHist_replicate_aux n v _
    (by have := Nat.min_le_left 255 v; rw [List.length_replicate]; omega)]
  rw [getD_replicate_zero]
  norm_num

lemma Wsum_set_zeros (k c : Nat) (hk : k < 256) :
    ∀ t, Wsum ((List.replicate 256 0).set k c) t = if k < t then c else 0 := by
  intro t
  induction t with
  | zero => rfl
  | succ t ih =>
    rw [Wsum_succ, ih]
    by_cases hkt : t = k
    · subst hkt
      rw [getD_set_self _ _ _ (by rw [List.length_replicate]; exact hk)]
      rw [if_neg (by omega), if_pos (by omega)]
      omega
    · rw [getD_set_ne _ _ _ _ hkt, getD_replicate_zero]
      by_cases h2 : k < t
      · rw [if_pos h2, if_pos (by omega)]
        omega
      · rw [if_neg h2, if_neg (by omega)]

lemma varAt_replicate (v n j : Nat) : varAt (List.replicate (n + 1) v) j = 0 := by
  have hk : min 255 v < 256 := by
    have := Nat.min_le_left 255 v
    omega
  by_cases h : min 255 v < j + 1
  · refine varAt_zero_of_full _ _ ?_
    rw [buildHist_replicate, Wsum_set_zeros _ _ hk, if_pos h, List.length_replicate]
  · refine varAt_zero_of_empty _ _ ?_
    rw [buildHist_replicate, Wsum_set_zeros _ _ hk, if_neg h]

lemma otsuStepE_eq (total sumTotal : Nat) (hist : List Nat) (s : OtsuState) (i : Nat) :
    otsuStepE total sumTotal hist s i = .ok (otsuStep total sumTotal hist s i) := by
  unfold otsuStepE otsuStep
  split
  · rfl
  · split
    · rfl
    · split
      · rfl
      · next h1 h2 h3 =>
        have hd1 : ¬ ((s.weightBg + hist.getD i 0 : Nat) : ℚ) = 0 := by
          rw [Nat.cast_eq_zero]
          exact h2
        have hd2 : ¬ ((total - (s.weightBg + hist.getD i 0) : Nat) : ℚ) = 0 := by
          rw [Nat.cast_eq_zero]
          exact h3
        unfold divE
        rw [if_neg hd1, if_neg hd2]
        split
        · next e heq => simp at heq
        · next mB heqB =>
          injection heqB with hB
          subst hB
          split
          · next e heq => simp at heq
          · next mF heqF =>
            injection heqF with hF
            subst hF
            split
            · rfl
            · rfl

lemma foldlM_otsuStepE (total sumTotal : Nat) (hist : List Nat) :
    ∀ (l : List Nat) (s : OtsuState),
      l.foldlM (otsuStepE total sumTotal hist) s =
        .ok (l.foldl (otsuStep total sumTotal hist) s) := by
  intro l
  induction l with
  | nil => intro s; rfl
  | cons a l ih =>
    intro s
    rw [List.foldlM_cons, otsuStepE_eq, List.foldl_cons]
    exact ih (otsuStep total sumTotal hist s a)

/-- C9: the Thresholder is total and deterministic — on the empty input it
returns 128; on any all-identical input it returns the defined value 128
(the loop breaks at the single occupied bin before any division); and the
division-checked variant never raises a `ZeroDivisionError` and agrees with
the plain function on every input (the model itself is a pure function, so
equal inputs give equal thresholds). -/
theorem c9_thresholder_total :
    otsuThreshold [] = 128 ∧
    (∀ v n, otsuThreshold (List.replicate (n + 1) v) = 128) ∧
    (∀ pixels, otsuThresholdE pixels = .ok (otsuThreshold pixels)) := by
  refine ⟨rfl, ?_, ?_⟩
  · intro v n
    obtain ⟨ha, hb, hc, hd, _, _⟩ := otsu_fold_inv (List.replicate (n + 1) v) 256
    unfold otsuThreshold
    rw [if_neg (by simp)]
    by_cases h0 : ((List.range 256).foldl
        (otsuStep (List.replicate (n + 1) v).length
          (Ssum (buildHist (List.replicate (n + 1) v)) 256)
          (buildHist (List.replicate (n + 1) v)))
        ⟨0, 0, 0, 128, false⟩).maxVariance = 0
    · exact hc h0
    · obtain ⟨heq, _⟩ := hd h0
      rw [varAt_replicate] at heq
      exact absurd heq.symm h0
  · intro pixels
    unfold otsuThresholdE otsuThreshold
    split
    · rfl
    · rw [foldlM_otsuStepE]

/-! ### The Otsu off-by-one counterexample on the input `[0, 255]` -/

lemma getD01 (t : Nat) (h1 : 1 ≤ t) (h2 : t ≤ 254) :
    (buildHist [0, 255]).getD t 0 = 0 := by
  have hsh : buildHist [0, 255] = ((List.replicate 256 0).set 0 1).set 255 1 := by decide
  rw [hsh, getD_set_ne _ _ _ _ (by omega), getD_set_ne _ _ _ _ (by omega),
    getD_replicate_zero]

lemma Wsum01 : ∀ t, 1 ≤ t → t ≤ 255 →
    Wsum (buildHist [0, 255]) t = 1 ∧ Ssum (buildHist [0, 255]) t = 0 := by
  intro t
  induction t with
  | zero => omega
  | succ t ih =>
    intro h1 h2
    by_cases ht : t = 0
    · subst ht
      exact ⟨by decide, by decide⟩
    · obtain ⟨hw, hs⟩ := ih (by omega) (by omega)
      have hg : (buildHist [0, 255]).getD t 0 = 0 := getD01 t (by omega) (by omega)
      rw [Wsum_succ, Ssum_succ, hw, hs, hg]
      constructor
      · omega
      · omega

lemma Wsum01_big : ∀ t, 256 ≤ t → Wsum (buildHist [0, 255]) t = 2 := by
  intro t
  induction t with
  | zero => omega
  | succ t ih =>
    intro h
    by_cases ht : t = 255
    · subst ht
      decide
    · rw [Wsum_succ, ih (by omega)]
      have hg : (buildHist [0, 255]).getD t 0 = 0 := by
        refine getD_of_ge_length _ t ?_
        have hlen : (buildHist [0, 255]).length = 256 := by decide
        omega
      rw [hg]

lemma varAt01_small (j : Nat) (hj : j ≤ 254) : varAt [0, 255] j = 65025 := by
  obtain ⟨hw, hs⟩ := Wsum01 (j + 1) (by omega) (by omega)
  have hst : Ssum (buildHist [0, 255]) 256 = 255 := by decide
  rw [varAt_of_pos _ _ (by omega) (by rw [hw]; decide)]
  rw [hw, hs, hst]
  norm_num

lemma varAt01 : ∀ j, varAt [0, 255] j = 65025 ∨ varAt [0, 255] j = 0 := by
  intro j
  by_cases hj : j ≤ 254
  · left
    exact varAt01_small j hj
  · right
    refine varAt_zero_of_full _ _ ?_
    rw [Wsum01_big (j + 1) (by omega)]
    decide

lemma otsu01 : otsuThreshold [0, 255] = 0 := by
  obtain ⟨ha, hb, hc, hd, _, _⟩ := otsu_fold_inv [0, 255] 256
  unfold otsuThreshold
  rw [if_neg (by decide)]
  by_cases h0 : ((List.range 256).foldl
      (otsuStep (List.length [0, 255]) (Ssum (buildHist [0, 255]) 256)
        (buildHist [0, 255]))
      ⟨0, 0, 0, 128, false⟩).maxVariance = 0
  · exfalso
    have hle := hb 0 (by omega)
    rw [varAt01_small 0 (by omega), h0] at hle
    linarith
  · obtain ⟨heq, hmin⟩ := hd h0
    by_contra hne
    have h1 := hmin 0 (by omega)
    rw [varAt01_small 0 (by omega)] at h1
    rcases varAt01 ((List.range 256).foldl
        (otsuStep (List.length [0, 255]) (Ssum (buildHist [0, 255]) 256)
          (buildHist [0, 255]))
        ⟨0, 0, 0, 128, false⟩).threshold with h2 | h2
    · rw [h2] at heq
      rw [← heq] at h1
      linarith
    · rw [h2] at heq
      exact h0 heq.symm

lemma varStrict01_at0 : varStrictAt [0, 255] 0 = 0 := by
  unfold varStrictAt
  rw [if_pos (by decide)]

lemma varStrict01_at1 : varStrictAt [0, 255] 1 = 65025 := by
  obtain ⟨hw, hs⟩ := Wsum01 1 (le_refl 1) (by omega)
  have hst : Ssum (buildHist [0, 255]) 256 = 255 := by decide
  unfold varStrictAt
  rw [hw, hs, hst]
  rw [if_neg (by omega), if_neg (by decide)]
  norm_num

/-- C6 counterexample: on the input `[0, 255]` the code returns threshold 0,
whose between-class variance for the partitions `(< t)` / `(≥ t)` named by
the claim is 0 (the background class is empty), strictly below the variance
65025 attained at threshold 1: the returned threshold does not maximize the
claim's `(< t)` / `(≥ t)` variance. -/
theorem c6_counterexample :
    varStrictAt [0, 255] (otsuThreshold [0, 255]) < varStrictAt [0, 255] 1 := by
  rw [otsu01, varStrict01_at0, varStrict01_at1]
  norm_num

end ImageScanner
